import Mathlib

/-!
Verification of the equation-region detector of `src/parsers/equation_detector.py`.

Shallow embedding conventions:
* A pixel coordinate is a `ℕ` pair `(x, y)`.
* `cv2.findContours` (together with the grayscale / adaptive-threshold /
  morphology stages that feed it) is an opaque image-processing primitive:
  an input image is represented by its width, height and the list of
  contours those stages produce for it (`ImageModel`).  Each contour is the
  list of its points, and `cv2.boundingRect` is modelled faithfully as the
  axis-aligned bounding box of those points.
* `pytesseract.image_to_string` is an external capability: a function from
  the cropped rectangle (the crop is the sub-image determined by that
  rectangle) to `Except String String`, where `Except.error` models a raised
  exception.
* Python float constants are modelled as exact rationals: `0.95` as `95/100`
  (the full-page test `w > img_w * 0.95` becomes `95 * img_w < 100 * w`),
  `1e-6` as `1/1000000`, `0.2` as `1/5`, and the margins `int(w * 0.03)`,
  `int(h * 0.05)` as the exact floors `w * 3 / 100`, `h * 5 / 100`, which
  agree with the double-precision evaluation on all realistic sizes.
* Python's `max(0, x - margin)` coincides with truncated `ℕ` subtraction.
* Python's `sorted` is a stable sort; any stable sort by the same key
  returns the same list, so insertion sort is an exact model of it.
-/

namespace EquationDetector

/-- A contour as returned by `cv2.findContours`: a list of pixel points
`(x, y)`. -/
abbrev Contour := List (ℕ × ℕ)

/-- A bounding box `(x, y, w, h)` in pixel coordinates. -/
structure Rect where
  x : ℕ
  y : ℕ
  w : ℕ
  h : ℕ
deriving DecidableEq

/-- Model of `cv2.boundingRect`: the axis-aligned bounding box of the
contour's points, with `w = max_x - min_x + 1` and `h = max_y - min_y + 1`
(OpenCV's inclusive pixel extents). An empty contour yields `(0,0,0,0)`. -/
def boundingRect : Contour → Rect
  | [] => ⟨0, 0, 0, 0⟩
  | p :: ps =>
    let minX := ps.foldl (fun m q => min m q.1) p.1
    let minY := ps.foldl (fun m q => min m q.2) p.2
    let maxX := ps.foldl (fun m q => max m q.1) p.1
    let maxY := ps.foldl (fun m q => max m q.2) p.2
    ⟨minX, minY, maxX + 1 - minX, maxY + 1 - minY⟩

/-- Line 54 of `equation_detector.py`: `if area < 400: return False` with
`area = w * h`. -/
def areaReject (r : Rect) : Bool :=
  decide (r.w * r.h < 400)

/-- Line 58: `if w > img_w * 0.95 and h > img_h * 0.95: return False`,
with `0.95` as the exact rational `95/100`. -/
def fullPageReject (r : Rect) (img_w img_h : ℕ) : Bool :=
  decide (95 * img_w < 100 * r.w ∧ 95 * img_h < 100 * r.h)

/-- Lines 62-63: the literal aspect-ratio condition
`ar < 0.2 and ar > 10` with `ar = w / (h + 1e-6)`, constants as exact
rationals. -/
def aspectReject (r : Rect) : Prop :=
  (r.w : ℚ) / ((r.h : ℚ) + 1 / 1000000) < 1 / 5 ∧
    (r.w : ℚ) / ((r.h : ℚ) + 1 / 1000000) > 10

instance (r : Rect) : Decidable (aspectReject r) :=
  inferInstanceAs (Decidable (_ ∧ _))

/-- Model of `_is_equation_like` (lines 47-70): sequential heuristics on the
contour's bounding box, each returning `False` on rejection. -/
def isEquationLike (r : Rect) (img_w img_h : ℕ) : Bool :=
  if areaReject r then false
  else if fullPageReject r img_w img_h then false
  else if aspectReject r then false
  else if r.h < 10 ∨ r.w < 10 then false
  else true

/-- `_is_equation_like` with the aspect-ratio branch (lines 61-64) removed;
used to state that the literal branch is a no-op. -/
def isEquationLikeNoAspect (r : Rect) (img_w img_h : ℕ) : Bool :=
  if areaReject r then false
  else if fullPageReject r img_w img_h then false
  else if r.h < 10 ∨ r.w < 10 then false
  else true

/-- The sort key of line 97: `boundingRect(c)[1] * img.shape[1] +
boundingRect(c)[0]`, i.e. `y * image_width + x`. -/
def rectKey (img_w : ℕ) (r : Rect) : ℕ :=
  r.y * img_w + r.x

/-- Comparison of contours by the line-97 sort key. -/
def contourLE (img_w : ℕ) (a b : Contour) : Prop :=
  rectKey img_w (boundingRect a) ≤ rectKey img_w (boundingRect b)

instance (img_w : ℕ) : DecidableRel (contourLE img_w) :=
  fun a b =>
    Nat.decLe (rectKey img_w (boundingRect a)) (rectKey img_w (boundingRect b))

instance (img_w : ℕ) : IsTotal Contour (contourLE img_w) :=
  ⟨fun a b =>
    Nat.le_total (rectKey img_w (boundingRect a)) (rectKey img_w (boundingRect b))⟩

instance (img_w : ℕ) : IsTrans Contour (contourLE img_w) :=
  ⟨fun _ _ _ hab hbc => Nat.le_trans hab hbc⟩

/-- Line 97: `sorted(contours, key=...)`.  Python's `sorted` is stable, and a
stable sort by a key is unique, so insertion sort models it exactly. -/
def sortContours (img_w : ℕ) (cs : List Contour) : List Contour :=
  List.insertionSort (contourLE img_w) cs

/-- One result entry (lines 112-135).  The crop `img[y0:y1, x0:x1]` is the
sub-image determined by `bbox`, so it carries no separate field here. -/
structure Region where
  bbox : Rect
  saved_path : Option String
  tesseract_text : Option String
  ocr_error : Option String
deriving DecidableEq

/-- Zero-padding of the crop index as in `f"eq_{idx:03d}.png"`. -/
def pad3 (n : ℕ) : String :=
  let s := toString n
  String.mk (List.replicate (3 - s.length) (Char.ofNat 48)) ++ s

/-- Lines 103-113: margin expansion and clipping of an accepted box.
`int(w * 0.03)` and `int(h * 0.05)` are the floors `w*3/100`, `h*5/100`;
`max(0, x - margin)` is truncated subtraction. -/
def finalizeRect (img_w img_h : ℕ) (r : Rect) : Rect :=
  let margin_x := r.w * 3 / 100
  let margin_y := r.h * 5 / 100
  let x0 := r.x - margin_x
  let y0 := r.y - margin_y
  let x1 := min img_w (r.x + r.w + margin_x)
  let y1 := min img_h (r.y + r.h + margin_y)
  ⟨x0, y0, x1 - x0, y1 - y0⟩

/-- Lines 103-135: the entry built for one accepted contour bounding box
`r` at loop index `idx`.  `recognize` models `pytesseract.image_to_string`
applied to the crop (identified by its rectangle); `Except.error` models a
raised exception, handled as in lines 131-133. -/
def mkEntry (img_w img_h : ℕ) (save_crops : Bool) (out_dir : String)
    (ocr : Bool) (recognize : Rect → Except String String) (idx : ℕ)
    (r : Rect) : Region :=
  let bbox := finalizeRect img_w img_h r
  { bbox := bbox
    saved_path :=
      if save_crops then some (out_dir ++ "/eq_" ++ pad3 idx ++ ".png")
      else none
    tesseract_text :=
      if ocr then
        match recognize bbox with
        | Except.ok txt => some txt.trim
        | Except.error _ => some ""
      else none
    ocr_error :=
      if ocr then
        match recognize bbox with
        | Except.ok _ => none
        | Except.error e => some e
      else none }

/-- An input image, represented by its dimensions together with the contour
list that the opaque CV stages (grayscale, adaptive threshold, morphological
close, `findContours`) produce for it. -/
structure ImageModel where
  width : ℕ
  height : ℕ
  contours : List Contour

/-- Model of `detect_equations_in_image` (lines 73-137): sort the contours
by reading-order key, then for each contour in order (with its enumeration
index) keep it exactly when `_is_equation_like` holds, building the entry of
lines 103-135. -/
def detect_equations_in_image (img : ImageModel) (save_crops : Bool)
    (out_dir : String) (ocr : Bool)
    (recognize : Rect → Except String String) : List Region :=
  (List.enum (sortContours img.width img.contours)).filterMap fun ic =>
    if isEquationLike (boundingRect ic.2) img.width img.height then
      some (mkEntry img.width img.height save_crops out_dir ocr recognize
        ic.1 (boundingRect ic.2))
    else none

/-- `detect_equations_in_image` with the aspect-ratio branch of
`_is_equation_like` removed (same pipeline, filter `isEquationLikeNoAspect`). -/
def detect_no_aspect (img : ImageModel) (save_crops : Bool)
    (out_dir : String) (ocr : Bool)
    (recognize : Rect → Except String String) : List Region :=
  (List.enum (sortContours img.width img.contours)).filterMap fun ic =>
    if isEquationLikeNoAspect (boundingRect ic.2) img.width img.height then
      some (mkEntry img.width img.height save_crops out_dir ocr recognize
        ic.1 (boundingRect ic.2))
    else none

/-- The pre-margin bounding boxes of the accepted contours, in the sorted
order in which the loop of lines 99-135 visits them. -/
def acceptedBoundingRects (img : ImageModel) : List Rect :=
  ((sortContours img.width img.contours).filter fun c =>
    isEquationLike (boundingRect c) img.width img.height).map boundingRect

/-- `acceptedBoundingRects` through the aspect-free filter (evaluation
helper). -/
def acceptedBoundingRectsNA (img : ImageModel) : List Rect :=
  ((sortContours img.width img.contours).filter fun c =>
    isEquationLikeNoAspect (boundingRect c) img.width img.height).map
    boundingRect

/-- Model of `detect_equations_from_pdf_page_image` (lines 140-151):
`imread` models `cv2.imread`, returning `none` when the file cannot be
loaded or decoded; in that case the function raises (`Except.error` with the
f-string message of line 150), otherwise it runs the detector. -/
def detect_equations_from_pdf_page_image
    (imread : String → Option ImageModel) (page_image_path : String)
    (save_crops : Bool) (out_dir : String) (ocr : Bool)
    (recognize : Rect → Except String String) :
    Except String (List Region) :=
  match imread page_image_path with
  | none => Except.error ("Could not load image: " ++ page_image_path)
  | some img =>
    Except.ok (detect_equations_in_image img save_crops out_dir ocr recognize)

/-- Two rects overlap when the half-open pixel boxes
`[x, x+w) × [y, y+h)` intersect. -/
def Overlaps (a b : Rect) : Prop :=
  a.x < b.x + b.w ∧ b.x < a.x + a.w ∧ a.y < b.y + b.h ∧ b.y < a.y + a.h

instance (a b : Rect) : Decidable (Overlaps a b) :=
  inferInstanceAs (Decidable (_ ∧ _ ∧ _ ∧ _))

/-! Helper lemmas. -/

/-- The literal aspect-ratio condition of lines 62-63 holds for no box. -/
lemma not_aspectReject (r : Rect) : ¬ aspectReject r := by
  rintro ⟨h1, h2⟩
  have h3 : (10 : ℚ) < 1 / 5 := lt_trans h2 h1
  norm_num at h3

/-- Filter equality: the aspect-ratio branch never fires. -/
lemma isEquationLike_eq (r : Rect) (img_w img_h : ℕ) :
    isEquationLike r img_w img_h = isEquationLikeNoAspect r img_w img_h := by
  unfold isEquationLike isEquationLikeNoAspect
  rw [if_neg (not_aspectReject r)]

/-- Detector equality: removing the aspect-ratio branch changes nothing. -/
lemma detect_eq_no_aspect (img : ImageModel) (save_crops : Bool)
    (out_dir : String) (ocr : Bool) (recognize : Rect → Except String String) :
    detect_equations_in_image img save_crops out_dir ocr recognize =
      detect_no_aspect img save_crops out_dir ocr recognize := by
  unfold detect_equations_in_image detect_no_aspect
  simp only [isEquationLike_eq]

/-- Evaluation helper: the accepted pre-margin boxes through either filter. -/
lemma acceptedBoundingRects_eq (img : ImageModel) :
    acceptedBoundingRects img = acceptedBoundingRectsNA img := by
  unfold acceptedBoundingRects acceptedBoundingRectsNA
  simp only [isEquationLike_eq]

/-- An accepted box passed the minimum-area check. -/
lemma accepted_area {r : Rect} {img_w img_h : ℕ}
    (h : isEquationLike r img_w img_h = true) : areaReject r = false := by
  cases hA : areaReject r
  · rfl
  · unfold isEquationLike at h
    rw [hA] at h
    simp at h

/-- An accepted contour is nonempty. -/
lemma accepted_ne_nil {c : Contour} {img_w img_h : ℕ}
    (h : isEquationLike (boundingRect c) img_w img_h = true) : c ≠ [] := by
  intro h0
  subst h0
  have hA : areaReject (boundingRect ([] : Contour)) = true := by decide
  rw [accepted_area h] at hA
  exact Bool.false_ne_true hA

lemma foldl_min_le (f : ℕ × ℕ → ℕ) :
    ∀ (l : List (ℕ × ℕ)) (a : ℕ), l.foldl (fun m q => min m (f q)) a ≤ a
  | [], a => le_refl a
  | q :: l, a => by
    simpa using le_trans (foldl_min_le f l (min a (f q))) (min_le_left a (f q))

lemma le_foldl_max (f : ℕ × ℕ → ℕ) :
    ∀ (l : List (ℕ × ℕ)) (a : ℕ), a ≤ l.foldl (fun m q => max m (f q)) a
  | [], a => le_refl a
  | q :: l, a => by
    simpa using le_trans (le_max_left a (f q)) (le_foldl_max f l (max a (f q)))

lemma foldl_max_lt (f : ℕ × ℕ → ℕ) :
    ∀ (l : List (ℕ × ℕ)) (a bound : ℕ), a < bound → (∀ q ∈ l, f q < bound) →
      l.foldl (fun m q => max m (f q)) a < bound
  | [], _, _, ha, _ => ha
  | q :: l, a, bound, ha, hl => by
    simp only [List.foldl_cons]
    exact foldl_max_lt f l (max a (f q)) bound
      (max_lt ha (hl q (List.mem_cons_self q l)))
      (fun p hp => hl p (List.mem_cons_of_mem q hp))

/-- Geometry of `boundingRect` on a nonempty contour whose points lie inside
the image. -/
lemma boundingRect_bounds (p : ℕ × ℕ) (ps : List (ℕ × ℕ)) (img_w img_h : ℕ)
    (hb : ∀ q ∈ p :: ps, q.1 < img_w ∧ q.2 < img_h) :
    0 < (boundingRect (p :: ps)).w ∧ 0 < (boundingRect (p :: ps)).h ∧
      (boundingRect (p :: ps)).x + (boundingRect (p :: ps)).w ≤ img_w ∧
      (boundingRect (p :: ps)).y + (boundingRect (p :: ps)).h ≤ img_h := by
  have hminx := foldl_min_le Prod.fst ps p.1
  have hminy := foldl_min_le Prod.snd ps p.2
  have hmaxx := le_foldl_max Prod.fst ps p.1
  have hmaxy := le_foldl_max Prod.snd ps p.2
  have hp := hb p (List.mem_cons_self p ps)
  have hbx : ps.foldl (fun m q => max m q.1) p.1 < img_w :=
    foldl_max_lt Prod.fst ps p.1 img_w hp.1
      (fun q hq => (hb q (List.mem_cons_of_mem p hq)).1)
  have hby : ps.foldl (fun m q => max m q.2) p.2 < img_h :=
    foldl_max_lt Prod.snd ps p.2 img_h hp.2
      (fun q hq => (hb q (List.mem_cons_of_mem p hq)).2)
  simp only [boundingRect]
  omega

/-- The finalized box never moves its top-left corner right or down. -/
lemma finalizeRect_le (img_w img_h : ℕ) (r : Rect) :
    (finalizeRect img_w img_h r).x ≤ r.x ∧
      (finalizeRect img_w img_h r).y ≤ r.y := by
  simp only [finalizeRect]
  omega

/-- Clipping never cuts into an accepted box that lies inside the image. -/
lemma finalizeRect_contains (img_w img_h : ℕ) (r : Rect)
    (hx : r.x + r.w ≤ img_w) (hy : r.y + r.h ≤ img_h) :
    r.x + r.w ≤ (finalizeRect img_w img_h r).x + (finalizeRect img_w img_h r).w ∧
      r.y + r.h ≤ (finalizeRect img_w img_h r).y + (finalizeRect img_w img_h r).h := by
  simp only [finalizeRect]
  omega

/-- The finalized box of an in-image box stays inside the image and keeps
positive extents. -/
lemma finalizeRect_within (img_w img_h : ℕ) (r : Rect)
    (hx : r.x + r.w ≤ img_w) (hy : r.y + r.h ≤ img_h)
    (hw : 0 < r.w) (hh : 0 < r.h) :
    0 < (finalizeRect img_w img_h r).w ∧ 0 < (finalizeRect img_w img_h r).h ∧
      (finalizeRect img_w img_h r).x + (finalizeRect img_w img_h r).w ≤ img_w ∧
      (finalizeRect img_w img_h r).y + (finalizeRect img_w img_h r).h ≤ img_h := by
  simp only [finalizeRect]
  omega

/-- Membership characterization of the line-99 loop over the enumerated,
sorted contour list. -/
lemma filterMap_enumFrom_mem (img_w img_h : ℕ) (save_crops : Bool)
    (out_dir : String) (ocr : Bool) (recognize : Rect → Except String String) :
    ∀ (l : List Contour) (n : ℕ) (reg : Region),
      reg ∈ (List.enumFrom n l).filterMap (fun ic =>
        if isEquationLike (boundingRect ic.2) img_w img_h then
          some (mkEntry img_w img_h save_crops out_dir ocr recognize
            ic.1 (boundingRect ic.2))
        else none) →
      ∃ idx c, c ∈ l ∧ isEquationLike (boundingRect c) img_w img_h = true ∧
        reg = mkEntry img_w img_h save_crops out_dir ocr recognize idx
          (boundingRect c)
  | [], n, reg => by simp [List.enumFrom]
  | c :: l, n, reg => by
    rw [List.enumFrom_cons, List.filterMap_cons]
    cases hacc : isEquationLike (boundingRect c) img_w img_h with
    | true =>
      simp only [hacc, if_true, List.mem_cons]
      rintro (rfl | hmem)
      · exact ⟨n, c, Or.inl rfl, hacc, rfl⟩
      · obtain ⟨idx, c', hc', hacc', hr⟩ :=
          filterMap_enumFrom_mem img_w img_h save_crops out_dir ocr recognize
            l (n + 1) reg hmem
        exact ⟨idx, c', Or.inr hc', hacc', hr⟩
    | false =>
      simp only [hacc, if_false, Bool.false_eq_true]
      intro hmem
      obtain ⟨idx, c', hc', hacc', hr⟩ :=
        filterMap_enumFrom_mem img_w img_h save_crops out_dir ocr recognize
          l (n + 1) reg hmem
      exact ⟨idx, c', List.mem_cons_of_mem c hc', hacc', hr⟩

/-- Every returned region comes from an accepted contour of the input. -/
lemma mem_detect {img : ImageModel} {save_crops : Bool} {out_dir : String}
    {ocr : Bool} {recognize : Rect → Except String String} {reg : Region}
    (h : reg ∈ detect_equations_in_image img save_crops out_dir ocr recognize) :
    ∃ idx c, c ∈ img.contours ∧
      isEquationLike (boundingRect c) img.width img.height = true ∧
      reg = mkEntry img.width img.height save_crops out_dir ocr recognize idx
        (boundingRect c) := by
  unfold detect_equations_in_image at h
  obtain ⟨idx, c, hc, hacc, hr⟩ :=
    filterMap_enumFrom_mem img.width img.height save_crops out_dir ocr
      recognize (sortContours img.width img.contours) 0 reg h
  refine ⟨idx, c, ?_, hacc, hr⟩
  exact ((List.perm_insertionSort (contourLE img.width) img.contours).mem_iff).mp hc

/-- The bbox projection of the loop output: finalized boxes of the accepted
pre-margin boxes, in order. -/
lemma map_bbox_filterMap (img_w img_h : ℕ) (save_crops : Bool)
    (out_dir : String) (ocr : Bool) (recognize : Rect → Except String String) :
    ∀ (l : List Contour) (n : ℕ),
      ((List.enumFrom n l).filterMap (fun ic =>
        if isEquationLike (boundingRect ic.2) img_w img_h then
          some (mkEntry img_w img_h save_crops out_dir ocr recognize
            ic.1 (boundingRect ic.2))
        else none)).map Region.bbox
      = ((l.filter fun c => isEquationLike (boundingRect c) img_w img_h).map
          fun c => finalizeRect img_w img_h (boundingRect c))
  | [], n => by simp [List.enumFrom]
  | c :: l, n => by
    rw [List.enumFrom_cons, List.filterMap_cons, List.filter_cons]
    cases hacc : isEquationLike (boundingRect c) img_w img_h with
    | true =>
      simp only [hacc, if_true, List.map_cons]
      rw [map_bbox_filterMap img_w img_h save_crops out_dir ocr recognize l (n + 1)]
      rfl
    | false =>
      simp only [hacc, if_false, Bool.false_eq_true]
      exact map_bbox_filterMap img_w img_h save_crops out_dir ocr recognize l (n + 1)

/-- The returned bboxes are the finalized accepted pre-margin boxes, in
order, independently of the recognizer, the persistence flag and the output
directory. -/
lemma detect_map_bbox (img : ImageModel) (save_crops : Bool)
    (out_dir : String) (ocr : Bool) (recognize : Rect → Except String String) :
    (detect_equations_in_image img save_crops out_dir ocr recognize).map
        Region.bbox
      = (acceptedBoundingRects img).map
          (finalizeRect img.width img.height) := by
  unfold detect_equations_in_image acceptedBoundingRects
  rw [show List.enum (sortContours img.width img.contours)
      = List.enumFrom 0 (sortContours img.width img.contours) from rfl]
  rw [map_bbox_filterMap img.width img.height save_crops out_dir ocr recognize
    (sortContours img.width img.contours) 0]
  rw [List.map_map]
  rfl

/-- Fields of an entry built with recognition enabled when the recognizer
fails on the region's crop. -/
lemma mkEntry_error_fields (img_w img_h : ℕ) (save_crops : Bool)
    (out_dir : String) (recognize : Rect → Except String String) (idx : ℕ)
    (r : Rect) (e : String)
    (h : recognize (finalizeRect img_w img_h r) = Except.error e) :
    (mkEntry img_w img_h save_crops out_dir true recognize idx r).tesseract_text
        = some "" ∧
      (mkEntry img_w img_h save_crops out_dir true recognize idx r).ocr_error
        = some e := by
  constructor <;> simp [mkEntry, h]

/-! Claim theorems. -/

/-- C1: the literal aspect-ratio condition `ratio < 0.2 AND ratio > 10` of
lines 62-63 is unsatisfiable, so no candidate is ever rejected on
aspect-ratio grounds: the filter, and hence the whole detector, is identical
to the same detector with the aspect-ratio branch removed. -/
theorem aspect_branch_is_noop (r : Rect) (img_w img_h : ℕ) (img : ImageModel)
    (save_crops : Bool) (out_dir : String) (ocr : Bool)
    (recognize : Rect → Except String String) :
    ¬ aspectReject r ∧
      isEquationLike r img_w img_h = isEquationLikeNoAspect r img_w img_h ∧
      detect_equations_in_image img save_crops out_dir ocr recognize =
        detect_no_aspect img save_crops out_dir ocr recognize :=
  ⟨not_aspectReject r, isEquationLike_eq r img_w img_h,
    detect_eq_no_aspect img save_crops out_dir ocr recognize⟩

/-- C2 counterexample: the claim "the bboxes of all returned Regions are
pairwise non-overlapping" is false.  Two disjoint accepted candidates with
pre-margin boxes `(0,0,140,20)` and `(141,0,140,20)` in a 300x40 image get
margin-expanded to `(0,0,144,21)` and `(137,0,148,21)`, which overlap. -/
theorem region_bboxes_can_overlap :
    (detect_equations_in_image
        ⟨300, 40, [[(0, 0), (139, 19)], [(141, 0), (280, 19)]]⟩
        false "d" false (fun _ => Except.error "e")).map Region.bbox
      = [⟨0, 0, 144, 21⟩, ⟨137, 0, 148, 21⟩] ∧
    Overlaps ⟨0, 0, 144, 21⟩ ⟨137, 0, 148, 21⟩ := by
  constructor
  · rw [detect_eq_no_aspect]
    decide
  · decide

/-- C2 (amended): the Rects of returned Regions need not be pairwise
non-overlapping; what does hold of all of them (the rest of the same spec
sentence) is containment in the image: `x ≥ 0`, `y ≥ 0`, `x+w ≤ image_width`
and `y+h ≤ image_height`, for every input whose contour points lie inside
the image. -/
theorem region_bboxes_within_bounds_amended (img : ImageModel)
    (save_crops : Bool) (out_dir : String) (ocr : Bool)
    (recognize : Rect → Except String String)
    (hpts : ∀ c ∈ img.contours, ∀ p ∈ c, p.1 < img.width ∧ p.2 < img.height) :
    ∀ reg ∈ detect_equations_in_image img save_crops out_dir ocr recognize,
      0 ≤ reg.bbox.x ∧ 0 ≤ reg.bbox.y ∧
        reg.bbox.x + reg.bbox.w ≤ img.width ∧
        reg.bbox.y + reg.bbox.h ≤ img.height := by
  intro reg hreg
  obtain ⟨idx, c, hc, hacc, rfl⟩ := mem_detect hreg
  cases c with
  | nil => exact absurd rfl (accepted_ne_nil hacc)
  | cons p ps =>
    have hb := boundingRect_bounds p ps img.width img.height (hpts _ hc)
    have hfin := finalizeRect_within img.width img.height
      (boundingRect (p :: ps)) hb.2.2.1 hb.2.2.2 hb.1 hb.2.1
    exact ⟨Nat.zero_le _, Nat.zero_le _, hfin.2.2.1, hfin.2.2.2⟩

/-- C2 witness for the amended claim, at a 300x40 image with one blob. -/
theorem region_bboxes_within_bounds_amended_witness :
    0 ≤ (mkEntry 300 40 false "d" false (fun _ => Except.error "e") 0
        ⟨0, 0, 140, 20⟩).bbox.x ∧
    0 ≤ (mkEntry 300 40 false "d" false (fun _ => Except.error "e") 0
        ⟨0, 0, 140, 20⟩).bbox.y ∧
    (mkEntry 300 40 false "d" false (fun _ => Except.error "e") 0
        ⟨0, 0, 140, 20⟩).bbox.x +
      (mkEntry 300 40 false "d" false (fun _ => Except.error "e") 0
        ⟨0, 0, 140, 20⟩).bbox.w ≤ 300 ∧
    (mkEntry 300 40 false "d" false (fun _ => Except.error "e") 0
        ⟨0, 0, 140, 20⟩).bbox.y +
      (mkEntry 300 40 false "d" false (fun _ => Except.error "e") 0
        ⟨0, 0, 140, 20⟩).bbox.h ≤ 40 := by
  refine region_bboxes_within_bounds_amended ⟨300, 40, [[(0, 0), (139, 19)]]⟩
    false "d" false (fun _ => Except.error "e") (by decide) _ ?_
  rw [detect_eq_no_aspect]
  decide

/-- C3: every returned Region's bbox has `x ≥ 0`, `y ≥ 0`, `w > 0`, `h > 0`,
`x+w ≤ image_width` and `y+h ≤ image_height`, for every input image whose
candidate contours lie within the image. -/
theorem region_bboxes_within_image (img : ImageModel) (save_crops : Bool)
    (out_dir : String) (ocr : Bool) (recognize : Rect → Except String String)
    (hpts : ∀ c ∈ img.contours, ∀ p ∈ c, p.1 < img.width ∧ p.2 < img.height) :
    ∀ reg ∈ detect_equations_in_image img save_crops out_dir ocr recognize,
      0 ≤ reg.bbox.x ∧ 0 ≤ reg.bbox.y ∧ 0 < reg.bbox.w ∧ 0 < reg.bbox.h ∧
        reg.bbox.x + reg.bbox.w ≤ img.width ∧
        reg.bbox.y + reg.bbox.h ≤ img.height := by
  intro reg hreg
  obtain ⟨idx, c, hc, hacc, rfl⟩ := mem_detect hreg
  cases c with
  | nil => exact absurd rfl (accepted_ne_nil hacc)
  | cons p ps =>
    have hb := boundingRect_bounds p ps img.width img.height (hpts _ hc)
    have hfin := finalizeRect_within img.width img.height
      (boundingRect (p :: ps)) hb.2.2.1 hb.2.2.2 hb.1 hb.2.1
    exact ⟨Nat.zero_le _, Nat.zero_le _, hfin.1, hfin.2.1, hfin.2.2.1,
      hfin.2.2.2⟩

/-- C3 witness, at the spec's 200x100 scenario with one blob at
`(20,20,60,20)`. -/
theorem region_bboxes_within_image_witness :
    0 ≤ (mkEntry 200 100 false "d" false (fun _ => Except.error "e") 0
        ⟨20, 20, 60, 20⟩).bbox.x ∧
    0 ≤ (mkEntry 200 100 false "d" false (fun _ => Except.error "e") 0
        ⟨20, 20, 60, 20⟩).bbox.y ∧
    0 < (mkEntry 200 100 false "d" false (fun _ => Except.error "e") 0
        ⟨20, 20, 60, 20⟩).bbox.w ∧
    0 < (mkEntry 200 100 false "d" false (fun _ => Except.error "e") 0
        ⟨20, 20, 60, 20⟩).bbox.h ∧
    (mkEntry 200 100 false "d" false (fun _ => Except.error "e") 0
        ⟨20, 20, 60, 20⟩).bbox.x +
      (mkEntry 200 100 false "d" false (fun _ => Except.error "e") 0
        ⟨20, 20, 60, 20⟩).bbox.w ≤ 200 ∧
    (mkEntry 200 100 false "d" false (fun _ => Except.error "e") 0
        ⟨20, 20, 60, 20⟩).bbox.y +
      (mkEntry 200 100 false "d" false (fun _ => Except.error "e") 0
        ⟨20, 20, 60, 20⟩).bbox.h ≤ 100 := by
  refine region_bboxes_within_image ⟨200, 100, [[(20, 20), (79, 39)]]⟩
    false "d" false (fun _ => Except.error "e") (by decide) _ ?_
  rw [detect_eq_no_aspect]
  decide

/-- C4 counterexample: the claim that the reading-order keys
`y * image_width + x` of the pre-margin accepted boxes are STRICTLY
increasing is false: two accepted contours can share a bounding-box top-left
corner, giving equal keys. -/
theorem regions_order_not_strict :
    acceptedBoundingRects ⟨200, 100, [[(50, 50), (69, 69)], [(50, 50), (79, 64)]]⟩
      = [⟨50, 50, 20, 20⟩, ⟨50, 50, 30, 15⟩] ∧
    ¬ List.Sorted (· < ·)
      ((acceptedBoundingRects
        ⟨200, 100, [[(50, 50), (69, 69)], [(50, 50), (79, 64)]]⟩).map
        (rectKey 200)) ∧
    (detect_equations_in_image
        ⟨200, 100, [[(50, 50), (69, 69)], [(50, 50), (79, 64)]]⟩
        false "d" false (fun _ => Except.error "e")).length = 2 := by
  refine ⟨?_, ?_, ?_⟩
  · rw [acceptedBoundingRects_eq]
    decide
  · have hk : ((acceptedBoundingRects
        ⟨200, 100, [[(50, 50), (69, 69)], [(50, 50), (79, 64)]]⟩).map
        (rectKey 200)) = [10050, 10050] := by
      rw [acceptedBoundingRects_eq]
      decide
    rw [hk]
    intro h
    exact absurd ((List.sorted_cons.mp h).1 10050 (List.mem_singleton.mpr rfl))
      (lt_irrefl 10050)
  · rw [detect_eq_no_aspect]
    decide

/-- C4 (amended): the returned Regions are, in order, the finalized versions
of the accepted pre-margin boxes, and the keys `y * image_width + x` of
those pre-margin boxes are non-decreasing (ties are possible, kept in the
stable sort order). -/
theorem regions_sorted_by_reading_key (img : ImageModel) (save_crops : Bool)
    (out_dir : String) (ocr : Bool)
    (recognize : Rect → Except String String) :
    (detect_equations_in_image img save_crops out_dir ocr recognize).map
        Region.bbox
      = (acceptedBoundingRects img).map (finalizeRect img.width img.height) ∧
    List.Sorted (· ≤ ·) ((acceptedBoundingRects img).map (rectKey img.width)) := by
  refine ⟨detect_map_bbox img save_crops out_dir ocr recognize, ?_⟩
  have hs : List.Sorted (contourLE img.width)
      (sortContours img.width img.contours) :=
    List.sorted_insertionSort (contourLE img.width) img.contours
  have hf : List.Sorted (contourLE img.width)
      ((sortContours img.width img.contours).filter fun c =>
        isEquationLike (boundingRect c) img.width img.height) :=
    List.Sorted.filter _ hs
  unfold acceptedBoundingRects
  rw [List.map_map]
  exact List.pairwise_map.mpr hf

/-- C5: with recognition enabled, a recognizer failure on a region is
recorded on that region as empty text plus the error message, and the list
of regions (their bboxes) does not depend on the recognizer at all, so every
other region is still processed and returned. -/
theorem recognition_failure_recorded_per_region (img : ImageModel)
    (save_crops : Bool) (out_dir : String)
    (recognize recognize' : Rect → Except String String) :
    ((detect_equations_in_image img save_crops out_dir true recognize).map
        Region.bbox
      = (detect_equations_in_image img save_crops out_dir true recognize').map
          Region.bbox) ∧
    ∀ reg ∈ detect_equations_in_image img save_crops out_dir true recognize,
      ∀ e, recognize reg.bbox = Except.error e →
        reg.tesseract_text = some "" ∧ reg.ocr_error = some e := by
  constructor
  · rw [detect_map_bbox, detect_map_bbox]
  · intro reg hreg e herr
    obtain ⟨idx, c, _, _, rfl⟩ := mem_detect hreg
    exact mkEntry_error_fields img.width img.height save_crops out_dir
      recognize idx (boundingRect c) e herr

/-- C5 witness: a failing recognizer at the spec's 200x100 scenario. -/
theorem recognition_failure_recorded_witness :
    (mkEntry 200 100 false "d" true (fun _ => Except.error "boom") 0
        ⟨20, 20, 60, 20⟩).tesseract_text = some "" ∧
    (mkEntry 200 100 false "d" true (fun _ => Except.error "boom") 0
        ⟨20, 20, 60, 20⟩).ocr_error = some "boom" ∧
    ((detect_equations_in_image ⟨200, 100, [[(20, 20), (79, 39)]]⟩ false "d"
        true (fun _ => Except.error "boom")).map Region.bbox
      = (detect_equations_in_image ⟨200, 100, [[(20, 20), (79, 39)]]⟩ false "d"
          true (fun _ => Except.error "other")).map Region.bbox) := by
  have h := recognition_failure_recorded_per_region
    ⟨200, 100, [[(20, 20), (79, 39)]]⟩ false "d"
    (fun _ => Except.error "boom") (fun _ => Except.error "other")
  have hm : mkEntry 200 100 false "d" true (fun _ => Except.error "boom") 0
      ⟨20, 20, 60, 20⟩ ∈ detect_equations_in_image
        ⟨200, 100, [[(20, 20), (79, 39)]]⟩ false "d" true
        (fun _ => Except.error "boom") := by
    rw [detect_eq_no_aspect]
    decide
  have h2 := h.2 _ hm "boom" rfl
  exact ⟨h2.1, h2.2, h.1⟩

/-- C6: with recognition disabled, no returned Region carries a
recognized-text or recognition-error field. -/
theorem ocr_disabled_no_text_fields (img : ImageModel) (save_crops : Bool)
    (out_dir : String) (recognize : Rect → Except String String) :
    ∀ reg ∈ detect_equations_in_image img save_crops out_dir false recognize,
      reg.tesseract_text = none ∧ reg.ocr_error = none := by
  intro reg hreg
  obtain ⟨idx, c, _, _, rfl⟩ := mem_detect hreg
  exact ⟨rfl, rfl⟩

/-- C6 witness. -/
theorem ocr_disabled_no_text_fields_witness :
    (mkEntry 200 100 false "d" false (fun _ => Except.error "e") 0
        ⟨20, 20, 60, 20⟩).tesseract_text = none ∧
    (mkEntry 200 100 false "d" false (fun _ => Except.error "e") 0
        ⟨20, 20, 60, 20⟩).ocr_error = none := by
  refine ocr_disabled_no_text_fields ⟨200, 100, [[(20, 20), (79, 39)]]⟩
    false "d" (fun _ => Except.error "e") _ ?_
  rw [detect_eq_no_aspect]
  decide

/-- C7: the full-page rule fires exactly when both `w` exceeds 95% of the
image width and `h` exceeds 95% of the image height; a 96%x96% box is
rejected by it, and a box spanning 90% of the width is never rejected by it,
whatever its height. -/
theorem full_page_rule_characterization (r : Rect) (img_w img_h : ℕ) :
    (fullPageReject r img_w img_h = true ↔
      (95 * img_w < 100 * r.w ∧ 95 * img_h < 100 * r.h)) ∧
    (25 * r.w = 24 * img_w → 25 * r.h = 24 * img_h → 0 < img_w → 0 < img_h →
      fullPageReject r img_w img_h = true) ∧
    (10 * r.w = 9 * img_w → fullPageReject r img_w img_h = false) := by
  refine ⟨?_, ?_, ?_⟩
  · simp [fullPageReject]
  · intro h1 h2 h3 h4
    simp only [fullPageReject, decide_eq_true_eq]
    omega
  · intro h1
    simp only [fullPageReject, decide_eq_false_iff_not]
    omega

/-- C7 witness: a 96x96 box in a 100x100 image is rejected; a box spanning
90 of width 100 is not, even with height exceeding the image. -/
theorem full_page_rule_witness :
    fullPageReject ⟨0, 0, 96, 96⟩ 100 100 = true ∧
    fullPageReject ⟨0, 0, 90, 123⟩ 100 77 = false :=
  ⟨(full_page_rule_characterization ⟨0, 0, 96, 96⟩ 100 100).2.1
      (by decide) (by decide) (by decide) (by decide),
    (full_page_rule_characterization ⟨0, 0, 90, 123⟩ 100 77).2.2 (by decide)⟩

/-- C8: a box of area exactly 400 is not rejected by the area rule, and
every box of area strictly below 400 is rejected by it. -/
theorem area_rule_boundary (r : Rect) :
    (r.w * r.h = 400 → areaReject r = false) ∧
    (r.w * r.h < 400 → areaReject r = true) := by
  constructor
  · intro h
    simp only [areaReject, decide_eq_false_iff_not]
    omega
  · intro h
    simp only [areaReject, decide_eq_true_eq]
    omega

/-- C8 witness: area 400 passes, area 380 is rejected. -/
theorem area_rule_boundary_witness :
    areaReject ⟨0, 0, 20, 20⟩ = false ∧ areaReject ⟨0, 0, 19, 20⟩ = true :=
  ⟨(area_rule_boundary ⟨0, 0, 20, 20⟩).1 (by decide),
    (area_rule_boundary ⟨0, 0, 19, 20⟩).2 (by decide)⟩

/-- C9: when the image cannot be loaded (`cv2.imread` returns `None`),
`detect_equations_from_pdf_page_image` raises with the load-failure message
and returns no partial results; when it loads, detection proceeds on the
loaded image. -/
theorem load_failure_aborts (imread : String → Option ImageModel)
    (page_image_path : String) (save_crops : Bool) (out_dir : String)
    (ocr : Bool) (recognize : Rect → Except String String) :
    (imread page_image_path = none →
      detect_equations_from_pdf_page_image imread page_image_path save_crops
          out_dir ocr recognize
        = Except.error ("Could not load image: " ++ page_image_path)) ∧
    ∀ img, imread page_image_path = some img →
      detect_equations_from_pdf_page_image imread page_image_path save_crops
          out_dir ocr recognize
        = Except.ok
            (detect_equations_in_image img save_crops out_dir ocr recognize) := by
  constructor
  · intro h
    unfold detect_equations_from_pdf_page_image
    rw [h]
  · intro img h
    unfold detect_equations_from_pdf_page_image
    rw [h]

/-- C9 witness: a loader that fails yields the error with the path in the
message; a loader that succeeds runs the detector. -/
theorem load_failure_aborts_witness :
    detect_equations_from_pdf_page_image (fun _ => none) "page.png" true
        "data/equation_crops" true (fun _ => Except.error "e")
      = Except.error "Could not load image: page.png" ∧
    detect_equations_from_pdf_page_image (fun _ => some ⟨10, 10, []⟩)
        "page.png" true "data/equation_crops" true (fun _ => Except.error "e")
      = Except.ok (detect_equations_in_image ⟨10, 10, []⟩ true
          "data/equation_crops" true (fun _ => Except.error "e")) := by
  constructor
  · have h := (load_failure_aborts (fun _ => none) "page.png" true
      "data/equation_crops" true (fun _ => Except.error "e")).1 rfl
    exact h.trans (congrArg Except.error (by decide))
  · exact (load_failure_aborts (fun _ => some ⟨10, 10, []⟩) "page.png" true
      "data/equation_crops" true (fun _ => Except.error "e")).2 ⟨10, 10, []⟩ rfl

/-- C10: for a pre-margin box lying within the image, the finalized
(margin-expanded then clipped) bbox contains it: clipping never cuts into
the accepted box. -/
theorem finalized_box_contains_accepted (img_w img_h : ℕ) (r : Rect)
    (hx : r.x + r.w ≤ img_w) (hy : r.y + r.h ≤ img_h) :
    (finalizeRect img_w img_h r).x ≤ r.x ∧
    (finalizeRect img_w img_h r).y ≤ r.y ∧
    r.x + r.w ≤
      (finalizeRect img_w img_h r).x + (finalizeRect img_w img_h r).w ∧
    r.y + r.h ≤
      (finalizeRect img_w img_h r).y + (finalizeRect img_w img_h r).h :=
  ⟨(finalizeRect_le img_w img_h r).1, (finalizeRect_le img_w img_h r).2,
    (finalizeRect_contains img_w img_h r hx hy).1,
    (finalizeRect_contains img_w img_h r hx hy).2⟩

/-- C10 witness at the box `(20,20,60,20)` in a 200x100 image. -/
theorem finalized_box_contains_accepted_witness :
    (finalizeRect 200 100 ⟨20, 20, 60, 20⟩).x ≤ 20 ∧
    (finalizeRect 200 100 ⟨20, 20, 60, 20⟩).y ≤ 20 ∧
    20 + 60 ≤ (finalizeRect 200 100 ⟨20, 20, 60, 20⟩).x +
      (finalizeRect 200 100 ⟨20, 20, 60, 20⟩).w ∧
    20 + 20 ≤ (finalizeRect 200 100 ⟨20, 20, 60, 20⟩).y +
      (finalizeRect 200 100 ⟨20, 20, 60, 20⟩).h :=
  finalized_box_contains_accepted 200 100 ⟨20, 20, 60, 20⟩
    (by decide) (by decide)

end EquationDetector
